import Mathlib

/-!
Verification development for the analytics dashboard service (src/main.py).

The file gives a shallow embedding of the service's core logic:
the TTL cache (`_get_cached`), the schema normalizer
(`_parse_timestamp` / `_df_to_records`), the Python aggregation
endpoints (`summary`, `user_data`) and the dashboard's client-side
helpers (`normalizeKey`, `findColumn`, `groupCounts`), followed by
theorems settling the specification's claims about them.

Modelling conventions:
* a pandas DataFrame row / JSON row is a `Record`: an ordered list of
  (column name, scalar) pairs; a whole DataFrame is a `List Record`
  whose column set is the union of the rows' keys (as produced by
  `pd.DataFrame(list_of_dicts)`, columns in order of first appearance);
* machine floats are modelled by exact rationals (`ℚ`); wall-clock
  times by integers (seconds);
* fallible Python code returns `Except`/`Option`, the error string
  naming the exception class the source would raise;
* JavaScript objects used as dictionaries are modelled as association
  lists (prototype-chain lookups are outside the model).
-/

/-- A structured timestamp (year, month, day, hour, minute, second):
the model of a pandas datetime value at the second precision rendered
by strftime("%Y-%m-%dT%H:%M:%S") in `_df_to_records`. -/
structure Instant where
  year : Nat
  month : Nat
  day : Nat
  hour : Nat
  minute : Nat
  second : Nat
deriving DecidableEq

/-- A scalar cell value of a record: string, integer, boolean,
null/NaN/NaT ("no value"), or a structured timestamp (the result of
`pd.to_datetime`). -/
inductive Scalar where
  | vstr (s : String)
  | vint (n : Int)
  | vbool (b : Bool)
  | vnull
  | vts (i : Instant)
deriving DecidableEq

/-- A record: ordered mapping from column name to scalar value. -/
abbrev Record := List (String × Scalar)

/-- Value of column `c` in record `r` (first occurrence), `none` when
the record has no such column (a NaN cell in the DataFrame picture). -/
def fieldVal : Record → String → Option Scalar
  | [], _ => none
  | (k, v) :: r, c => if k = c then some v else fieldVal r c

/-! ### Column set of a DataFrame

`pd.DataFrame(rows)` materializes the union of the rows' keys, in
order of first appearance. -/

/-- Append a column name if it is not already present. -/
def addCol (acc : List String) (k : String) : List String :=
  if k ∈ acc then acc else acc ++ [k]

/-- Fold one record's keys into an accumulated column list. -/
def recCols (acc : List String) (r : Record) : List String :=
  r.foldl (fun a kv => addCol a kv.1) acc

/-- Ordered union of all column names of a list of records: the
`df.columns` of `pd.DataFrame(rows)`. -/
def columnsOf (rows : List Record) : List String :=
  rows.foldl recCols []

/-! ### Timestamp parsing and rendering

`_parse_timestamp` applies `pd.to_datetime` to the "Timestamp" column;
`_df_to_records` renders datetime columns with
`strftime("%Y-%m-%dT%H:%M:%S")` and replaces null cells by `None`. -/

/-- Decimal digit character for `n % 10`. -/
def digitChar (n : Nat) : Char := Char.ofNat (48 + n % 10)

/-- ASCII digit test. -/
def isDig (c : Char) : Bool := 48 ≤ c.toNat && c.toNat ≤ 57

/-- Numeric value of an ASCII digit character. -/
def dval (c : Char) : Nat := c.toNat - 48

/-- Parse a two-digit number. -/
def p2 (a b : Char) : Option Nat :=
  if isDig a && isDig b then some (10 * dval a + dval b) else none

/-- Parse a four-digit number. -/
def p4 (a b c d : Char) : Option Nat :=
  if isDig a && isDig b && isDig c && isDig d then
    some (1000 * dval a + 100 * dval b + 10 * dval c + dval d)
  else none

/-- Gregorian leap-year test. -/
def isLeap (y : Nat) : Bool := (y % 4 = 0 && y % 100 ≠ 0) || y % 400 = 0

/-- Number of days in a month. -/
def daysInMonth (y m : Nat) : Nat :=
  if m = 2 then (if isLeap y then 29 else 28)
  else if m = 4 ∨ m = 6 ∨ m = 9 ∨ m = 11 then 30
  else 31

/-- A calendar-valid instant within the range representable by pandas'
nanosecond datetime64 (full years 1678..2261). -/
def validInstant (i : Instant) : Bool :=
  1678 ≤ i.year && i.year ≤ 2261 &&
  1 ≤ i.month && i.month ≤ 12 &&
  1 ≤ i.day && i.day ≤ daysInMonth i.year i.month &&
  i.hour ≤ 23 && i.minute ≤ 59 && i.second ≤ 59

/-- Build an instant, validating it the way `pd.to_datetime` does
(out-of-range dates raise). -/
def mkInstant (y mo d h mi s : Nat) : Option Instant :=
  let i : Instant := ⟨y, mo, d, h, mi, s⟩
  if validInstant i then some i else none

/-- Accept an optional fractional-seconds suffix (pandas parses it;
the fraction is below the precision rendered back by the service). -/
def fracOk : List Char → Bool
  | [] => true
  | c :: ds => c = '.' && !ds.isEmpty && ds.all isDig

/-- Parse the digits of a full date-time into a validated instant. -/
def parseAll (y1 y2 y3 y4 m1 m2 d1 d2 h1 h2 n1 n2 s1 s2 : Char) : Option Instant :=
  (p4 y1 y2 y3 y4).bind fun y =>
  (p2 m1 m2).bind fun mo =>
  (p2 d1 d2).bind fun d =>
  (p2 h1 h2).bind fun h =>
  (p2 n1 n2).bind fun mi =>
  (p2 s1 s2).bind fun s =>
  mkInstant y mo d h mi s

/-- Parse an ISO-style date or date-time character sequence:
"YYYY-MM-DD" optionally followed by ("T" or " ") "HH:MM:SS" and an
optional ".fraction". This is the modelled input language of
`pd.to_datetime` for string cells. -/
def parseChars (cs : List Char) : Option Instant :=
  match cs with
  | y1 :: y2 :: y3 :: y4 :: c1 :: m1 :: m2 :: c2 :: d1 :: d2 :: rest =>
    if c1 = '-' ∧ c2 = '-' then
      match rest with
      | [] => parseAll y1 y2 y3 y4 m1 m2 d1 d2 '0' '0' '0' '0' '0' '0'
      | sep :: h1 :: h2 :: c3 :: n1 :: n2 :: c4 :: s1 :: s2 :: rest2 =>
        if (sep = 'T' ∨ sep = ' ') ∧ c3 = ':' ∧ c4 = ':' ∧ fracOk rest2 then
          parseAll y1 y2 y3 y4 m1 m2 d1 d2 h1 h2 n1 n2 s1 s2
        else none
      | _ => none
    else none
  | _ => none

/-- Parse a timestamp string. -/
def parseTS (s : String) : Option Instant := parseChars s.toList

/-- Character sequence of strftime("%Y-%m-%dT%H:%M:%S"). -/
def renderChars (i : Instant) : List Char :=
  [digitChar (i.year / 1000), digitChar (i.year / 100), digitChar (i.year / 10), digitChar i.year,
   '-', digitChar (i.month / 10), digitChar i.month,
   '-', digitChar (i.day / 10), digitChar i.day,
   'T', digitChar (i.hour / 10), digitChar i.hour,
   ':', digitChar (i.minute / 10), digitChar i.minute,
   ':', digitChar (i.second / 10), digitChar i.second]

/-- Render an instant in the service's canonical wire form
"YYYY-MM-DDTHH:MM:SS". -/
def renderTS (i : Instant) : String := String.mk (renderChars i)

/-- Model of `pd.to_datetime` applied to one cell of the "Timestamp"
column: null/NaN becomes NaT (kept as `vnull`), an existing datetime is
kept, the empty string becomes NaT, any other string is parsed
(`none` = the parse error that aborts `pd.to_datetime`). Booleans
raise a TypeError in pandas; integer epoch inputs lie outside the
modelled timestamp domain and are mapped to the error case as well. -/
def pdToDatetime (v : Scalar) : Option Scalar :=
  match v with
  | Scalar.vnull => some Scalar.vnull
  | Scalar.vts i => if validInstant i then some (Scalar.vts i) else none
  | Scalar.vstr s => if s = "" then some Scalar.vnull else (parseTS s).map Scalar.vts
  | Scalar.vint _ => none
  | Scalar.vbool _ => none

/-- mapOpt f l applies a fallible function to every element,
short-circuiting on the first failure (the Option monad's mapM). -/
def mapOpt (f : α → Option β) : List α → Option (List β)
  | [] => some []
  | a :: l => (f a).bind fun b => (mapOpt f l).map fun m => b :: m

/-- Transform one record for `_parse_timestamp`: every cell of the
"Timestamp" column goes through `pd.to_datetime`. -/
def parseRecordTS (r : Record) : Option Record :=
  mapOpt (fun kv =>
    if kv.1 = "Timestamp" then (pdToDatetime kv.2).map (fun w => (kv.1, w))
    else some kv) r

/-- Model of `_parse_timestamp`: when the DataFrame has a "Timestamp"
column, parse it with `pd.to_datetime`; a parse failure anywhere in the
column raises, aborting the whole load (`none`). -/
def parse_timestamp (rows : List Record) : Option (List Record) :=
  if "Timestamp" ∈ columnsOf rows then mapOpt parseRecordTS rows
  else some rows

/-- Wire form of one cell for `_df_to_records`: datetimes are rendered
with strftime("%Y-%m-%dT%H:%M:%S"), null cells (including columns the
row does not carry) become `None`. -/
def wireVal (v : Option Scalar) : Scalar :=
  match v with
  | none => Scalar.vnull
  | some (Scalar.vts i) => Scalar.vstr (renderTS i)
  | some w => w

/-- Model of `_df_to_records`: every record is materialized over the
full column set, datetimes rendered and nulls unified. -/
def df_to_records (rows : List Record) : List Record :=
  let cols := columnsOf rows
  rows.map (fun r => cols.map (fun c => (c, wireVal (fieldVal r c))))

/-- The schema normalizer of the spec: `_parse_timestamp` followed by
`_df_to_records` (parse at load time, render at response time). -/
def normalizeRows (rows : List Record) : Option (List Record) :=
  (parse_timestamp rows).map df_to_records

/-! ### TTL cache (`_get_cached`) -/

/-- One entry of the in-memory cache `_cache[key]`: a fetch time `ts`
(initially 0) and the cached snapshot (initially `None`). -/
structure CacheEntry where
  ts : Int
  data : Option (List Record)
deriving DecidableEq

/-- Model of `_get_cached(key, loader)` acting on the entry for `key`:
given the TTL, the current time, the entry and the outcome the loader
would produce if invoked, return the entry after the call together
with the call's result (`Except.error` = the loader's exception
propagating out of `_get_cached`). The loader is invoked exactly when
the stored data is `None` or older than the TTL; on success both the
data and the fetch time are replaced, on failure the assignment never
happens and the entry is untouched. -/
def get_cached (ttl now : Int) (entry : CacheEntry) (loader : Except String (List Record)) :
    CacheEntry × Except String (Option (List Record)) :=
  if entry.data = none ∨ now - entry.ts > ttl then
    match loader with
    | Except.error e => (entry, Except.error e)
    | Except.ok d => ({ ts := now, data := some d }, Except.ok (some d))
  else
    (entry, Except.ok entry.data)

/-! ### Aggregation endpoints (`summary`, `user_data`) -/

/-- Values of one column across a list of records (`df[c]`). -/
def colVals (rows : List Record) (c : String) : List (Option Scalar) :=
  rows.map (fun r => fieldVal r c)

/-- Model of `Series.nunique`: the number of distinct non-null values. -/
def nunique (vs : List (Option Scalar)) : Nat :=
  (((vs.filterMap id).filter (fun v => decide (v ≠ Scalar.vnull))).dedup).length

/-- Round a rational to the nearest integer, ties to even: the
behaviour of Python's round() (modelled over exact rationals; binary
floating-point representation error is outside the model). -/
def roundHalfEven (q : ℚ) : ℤ :=
  if q - ⌊q⌋ < 1/2 then ⌊q⌋
  else if 1/2 < q - ⌊q⌋ then ⌊q⌋ + 1
  else if ⌊q⌋ % 2 = 0 then ⌊q⌋ else ⌊q⌋ + 1

/-- Python's round(x, 2). -/
def round2 (q : ℚ) : ℚ := (roundHalfEven (q * 100) : ℚ) / 100

/-- Modelled from the spec: the spec-level
conversion_ratio(completed, total) = completed / total * 100 rounded
to two decimal places; used to compare the `summary` endpoint's inline
computation against the spec's named function. -/
def conversion_ratio (completed total : Nat) : ℚ :=
  round2 ((completed : ℚ) / (total : ℚ) * 100)

/-- Result record of the `/summary` endpoint. -/
structure SummaryOut where
  total : Nat
  completed : Nat
  verified : Nat
  conversion : ℚ
deriving DecidableEq

/-- df.TelegramUserID.nunique() over the users dataset. -/
def summaryTotal (rows : List Record) : Nat :=
  nunique (colVals rows "TelegramUserID")

/-- Model of the `/summary` endpoint: unique-user counts and the
conversion percentage round(completed / total * 100, 2). Attribute
access on a missing column (df.TelegramUserID, df.RegistrationStatus,
df.EmailVerified — e.g. on the column-less empty DataFrame) raises
AttributeError, in the source's evaluation order; with the columns
present and `total = 0`, the division raises (`ZeroDivisionError`
propagating out of the handler). -/
def summary (rows : List Record) : Except String SummaryOut :=
  if "TelegramUserID" ∉ columnsOf rows then Except.error "AttributeError"
  else if "RegistrationStatus" ∉ columnsOf rows then Except.error "AttributeError"
  else if "EmailVerified" ∉ columnsOf rows then Except.error "AttributeError"
  else
    let total := summaryTotal rows
    let completed := nunique (colVals
      (rows.filter (fun r => decide (fieldVal r "RegistrationStatus" = some (Scalar.vstr "Completed"))))
      "TelegramUserID")
    let verified := nunique (colVals
      (rows.filter (fun r => decide (fieldVal r "EmailVerified" = some (Scalar.vstr "Yes"))))
      "TelegramUserID")
    if total = 0 then Except.error "ZeroDivisionError"
    else Except.ok ⟨total, completed, verified, round2 ((completed : ℚ) / (total : ℚ) * 100)⟩

/-- Chronological key of an instant (strictly monotone in the
lexicographic field order for valid instants). -/
def instKey (i : Instant) : Nat :=
  ((((i.year * 13 + i.month) * 32 + i.day) * 24 + i.hour) * 60 + i.minute) * 60 + i.second

/-- Structured timestamp of a row, if its "Timestamp" cell holds one. -/
def rowTs (r : Record) : Option Instant :=
  match fieldVal r "Timestamp" with
  | some (Scalar.vts i) => some i
  | _ => none

/-- Sort key for `sort_values("Timestamp")`: NaT rows sort last
(pandas' na_position="last"). -/
def rowSortKey (r : Record) : Nat × Nat :=
  match rowTs r with
  | some i => (0, instKey i)
  | none => (1, 0)

/-- Lexicographic order on sort keys. -/
def keyLe (a b : Nat × Nat) : Bool :=
  a.1 < b.1 || (a.1 = b.1 && a.2 ≤ b.2)

/-- Insert a record into a timestamp-sorted list. -/
def insertSorted (x : Record) : List Record → List Record
  | [] => [x]
  | y :: l => if keyLe (rowSortKey x) (rowSortKey y) then x :: y :: l else y :: insertSorted x l

/-- Model of `u.sort_values("Timestamp")` (ascending; the order among
rows with equal timestamps is unspecified in pandas' quicksort, the
model fixes one). -/
def sortByTimestamp : List Record → List Record
  | [] => []
  | x :: l => insertSorted x (sortByTimestamp l)

/-- Calendar date of an instant. -/
def dateOf (i : Instant) : Nat × Nat × Nat := (i.year, i.month, i.day)

/-- Dates of the rows that carry a parsed timestamp (groupby drops
NaT keys). -/
def datesOf (u : List Record) : List (Nat × Nat × Nat) :=
  u.filterMap (fun r => (rowTs r).map dateOf)

/-- Chronological order on dates. -/
def dateLe (a b : Nat × Nat × Nat) : Bool :=
  (a.1 * 13 + a.2.1) * 32 + a.2.2 ≤ (b.1 * 13 + b.2.1) * 32 + b.2.2

/-- Insert a date into a sorted date list. -/
def insertDate (x : Nat × Nat × Nat) : List (Nat × Nat × Nat) → List (Nat × Nat × Nat)
  | [] => [x]
  | y :: l => if dateLe x y then x :: y :: l else y :: insertDate x l

/-- Sort a date list ascending (groupby emits its keys sorted). -/
def sortDates : List (Nat × Nat × Nat) → List (Nat × Nat × Nat)
  | [] => []
  | x :: l => insertDate x (sortDates l)

/-- Model of `u.groupby(u.Timestamp.dt.date).size().to_dict()`: a
date-to-count mapping over the selected rows, dates ascending. -/
def timelineOf (u : List Record) : List ((Nat × Nat × Nat) × Nat) :=
  let ds := datesOf u
  (sortDates ds.dedup).map (fun d => (d, ds.count d))

/-- Result of the `/user/{username}` endpoint: the latest profile
fields and the activity timeline. -/
structure UserView where
  name : Option Scalar
  email : Option Scalar
  status : Option Scalar
  plan : Option Scalar
  risk : Option Scalar
  timeline : List ((Nat × Nat × Nat) × Nat)
deriving DecidableEq

/-- Model of the `/user/{username}` endpoint (`user_data`): select the
rows whose TelegramUsername equals the requested username, take the
row with the greatest Timestamp for the profile, and group the
selection's timestamps by date for the timeline. Error strings name
the exception the source raises at the corresponding step:
AttributeError for `df.TelegramUsername` on a frame without that
column, KeyError for `sort_values("Timestamp")` without a Timestamp
column, IndexError for `.iloc[-1]` on an empty selection. -/
def user_data (records : List Record) (username : String) : Except String UserView :=
  if "TelegramUsername" ∉ columnsOf records then Except.error "AttributeError"
  else
    let u := records.filter (fun r => decide (fieldVal r "TelegramUsername" = some (Scalar.vstr username)))
    if "Timestamp" ∉ columnsOf records then Except.error "KeyError"
    else
      match (sortByTimestamp u).getLast? with
      | none => Except.error "IndexError"
      | some last => Except.ok
          { name := fieldVal last "FullName"
            email := fieldVal last "Email"
            status := fieldVal last "RegistrationStatus"
            plan := fieldVal last "InvestmentPlanSelected"
            risk := fieldVal last "RiskOptionSelected"
            timeline := timelineOf u }

/-! ### Client-side helpers (dashboard script)

`normalizeKey`, `findColumn`, `groupCounts` from the dashboard page.
JavaScript objects are modelled as association lists; string coercion
and truthiness are modelled per value case. -/

/-- Characters kept by the regex [a-z0-9] after lowercasing. -/
def normChar (c : Char) : Bool :=
  ('a' ≤ c && c ≤ 'z') || ('0' ≤ c && c ≤ '9')

/-- Model of normalizeKey: lowercase, then strip every character that
is not an ASCII lowercase letter or digit (ASCII case-folding; the
claims only exercise ASCII names). -/
def normalizeKey (key : String) : String :=
  String.mk ((key.toList.map Char.toLower).filter normChar)

/-- Lookup in the map built by the keys.forEach loop storing each key
under its normalized form:
later keys overwrite earlier ones, so the stored original is the last
key with the given normalized form. -/
def columnMapLookup (keys : List String) (q : String) : Option String :=
  keys.reverse.find? (fun k => normalizeKey k == q)

/-- One candidate's hit in findColumn: the stored original key, except
that the JavaScript truthiness test if (hit) skips an original key
that is the empty string. -/
def candidateHit (keys : List String) (c : String) : Option String :=
  match columnMapLookup keys (normalizeKey c) with
  | some hit => if hit = "" then none else some hit
  | none => none

/-- Model of findColumn(rows, candidates): null on an empty row list,
otherwise the first candidate (in list order) whose normalized form
has a truthy entry in the map built from the first row's keys. -/
def findColumn (rows : List Record) (candidates : List String) : Option String :=
  match rows with
  | [] => none
  | r :: _ => candidates.findSome? (candidateHit (r.map Prod.fst))

/-- ASCII whitespace removed by the JavaScript trim() (the claims only
exercise ASCII whitespace). -/
def isWsp (c : Char) : Bool :=
  c = ' ' || c = '\t' || c = '\n' || c = '\r'

/-- Strip leading and trailing whitespace from a character list. -/
def trimChars (l : List Char) : List Char :=
  ((l.dropWhile isWsp).reverse.dropWhile isWsp).reverse

/-- Model of the JavaScript trim(). -/
def jsTrim (s : String) : String := String.mk (trimChars s.toList)

/-- JavaScript String(raw ?? "Unknown").trim() || "Unknown" applied to
one cell (`none` = the property is absent). -/
def gcKey (v : Option Scalar) : String :=
  let s := match v with
    | none => "Unknown"
    | some Scalar.vnull => "Unknown"
    | some (Scalar.vstr t) => t
    | some (Scalar.vint n) => toString n
    | some (Scalar.vbool b) => if b then "true" else "false"
    | some (Scalar.vts i) => renderTS i
  let t := jsTrim s
  if t = "" then "Unknown" else t

/-- counts[key] = (counts[key] || 0) + 1 on an insertion-ordered
association list. -/
def bump : List (String × Nat) → String → List (String × Nat)
  | [], k => [(k, 1)]
  | (a, n) :: t, k => if a = k then (a, n + 1) :: t else (a, n) :: bump t k

/-- The counts object built by groupCounts' forEach loop. -/
def countsFold (rows : List Record) (c : String) : List (String × Nat) :=
  rows.foldl (fun acc r => bump acc (gcKey (fieldVal r c))) []

/-- Model of groupCounts(rows, col): null when col is falsy (null or
the empty string), otherwise the value-to-count mapping in insertion
order of first occurrence. -/
def groupCounts (rows : List Record) (col : Option String) : Option (List (String × Nat)) :=
  match col with
  | none => none
  | some c => if c = "" then none else some (countsFold rows c)

/-- Lookup in a counts association list. -/
def lookupCount : List (String × Nat) → String → Option Nat
  | [], _ => none
  | (a, n) :: t, k => if a = k then some n else lookupCount t k

/-! ## Theorems

General helper lemmas first, then one theorem per claim (with a
counterexample theorem where the claim fails on the code, and a
witness theorem where the claim's theorem carries hypotheses). -/

deriving instance DecidableEq for Except

/-- A fresh non-empty entry is served as stored, whatever the loader
would do: the refresh branch is not taken, so the loader is not
invoked. -/
theorem get_cached_fresh (ttl now : Int) (e : CacheEntry) (s : List Record)
    (loader : Except String (List Record))
    (hs : e.data = some s) (hf : now - e.ts ≤ ttl) :
    get_cached ttl now e loader = (e, Except.ok (some s)) := by
  unfold get_cached
  rw [if_neg, hs]
  rintro (h | h)
  · rw [hs] at h; exact Option.some_ne_none s h
  · omega

/-- When the refresh branch is taken and the loader fails, the failure
propagates and the entry is returned unchanged. -/
theorem get_cached_refresh_error (ttl now : Int) (e : CacheEntry) (err : String)
    (h : e.data = none ∨ now - e.ts > ttl) :
    get_cached ttl now e (Except.error err) = (e, Except.error err) := by
  unfold get_cached
  rw [if_pos h]

/-- When the refresh branch is taken and the loader succeeds, the
loader's snapshot is stored with the current time and returned. -/
theorem get_cached_refresh_ok (ttl now : Int) (e : CacheEntry) (d : List Record)
    (h : e.data = none ∨ now - e.ts > ttl) :
    get_cached ttl now e (Except.ok d) = (⟨now, some d⟩, Except.ok (some d)) := by
  unfold get_cached
  rw [if_pos h]

/-- Claim C1, counterexample. A snapshot fetched at time 0 exists
(data is not None) and a refresh at time 601 with TTL 600 fails with
SourceUnavailable: contrary to the claim, `get` does not return the
previously stored snapshot — the loader's failure propagates as an
error out of the call. -/
theorem c1_counterexample :
    (⟨0, some [[("TelegramUserID", Scalar.vstr "u1")]]⟩ : CacheEntry).data ≠ none
    ∧ (get_cached 600 601 ⟨0, some [[("TelegramUserID", Scalar.vstr "u1")]]⟩
        (Except.error "SourceUnavailable")).2 = Except.error "SourceUnavailable" :=
  ⟨by simp, rfl⟩

/-- Claim C1 (amended): when a previous snapshot exists, a Record
Source failure cannot affect a `get` within the TTL (the loader is not
invoked and the stored snapshot is served); but whenever a refresh is
actually attempted — no stored snapshot, or stored snapshot older than
the TTL — a loader failure propagates as a hard error, even when a
stale snapshot exists. -/
theorem c1_failure_policy (ttl now : Int) (e : CacheEntry) (err : String) :
    (∀ s, e.data = some s → now - e.ts ≤ ttl →
      get_cached ttl now e (Except.error err) = (e, Except.ok (some s)))
    ∧ ((e.data = none ∨ now - e.ts > ttl) →
      get_cached ttl now e (Except.error err) = (e, Except.error err)) :=
  ⟨fun s hs hf => get_cached_fresh ttl now e s (Except.error err) hs hf,
   fun h => get_cached_refresh_error ttl now e err h⟩

/-- Claim C1 witness: at TTL 600, a snapshot fetched at time 0 is
served at time 300 despite a failing loader, and the same failing
loader propagates at time 601. -/
theorem c1_failure_policy_witness :
    get_cached 600 300 ⟨0, some [[("TelegramUserID", Scalar.vstr "u1")]]⟩ (Except.error "SourceUnavailable")
      = (⟨0, some [[("TelegramUserID", Scalar.vstr "u1")]]⟩, Except.ok (some [[("TelegramUserID", Scalar.vstr "u1")]]))
    ∧ get_cached 600 601 ⟨0, some [[("TelegramUserID", Scalar.vstr "u1")]]⟩ (Except.error "SourceUnavailable")
      = (⟨0, some [[("TelegramUserID", Scalar.vstr "u1")]]⟩, Except.error "SourceUnavailable") :=
  ⟨(c1_failure_policy 600 300 ⟨0, some [[("TelegramUserID", Scalar.vstr "u1")]]⟩ "SourceUnavailable").1
      [[("TelegramUserID", Scalar.vstr "u1")]] rfl (by decide),
   (c1_failure_policy 600 601 ⟨0, some [[("TelegramUserID", Scalar.vstr "u1")]]⟩ "SourceUnavailable").2
      (Or.inr (by decide))⟩

/-- Claim C2, counterexample. TTL 600, snapshot A stored with
fetched_at 0. Two `get` calls 2 seconds apart (at times 599 and 601,
well within TTL of each other), no write in between, stored snapshot
non-absent: the first call serves A, but the second call invokes the
loader (its result depends on the loader's answer B) and returns B,
not the identical snapshot — freshness is measured from fetched_at,
not from the previous call. -/
theorem c2_counterexample :
    ((0 : Int) ≤ 601 - 599 ∧ (601 : Int) - 599 ≤ 600)
    ∧ get_cached 600 599 ⟨0, some [[("TelegramUserID", Scalar.vstr "u1")]]⟩
        (Except.ok [[("TelegramUserID", Scalar.vstr "u2")]])
      = (⟨0, some [[("TelegramUserID", Scalar.vstr "u1")]]⟩,
         Except.ok (some [[("TelegramUserID", Scalar.vstr "u1")]]))
    ∧ get_cached 600 601 ⟨0, some [[("TelegramUserID", Scalar.vstr "u1")]]⟩
        (Except.ok [[("TelegramUserID", Scalar.vstr "u2")]])
      = (⟨601, some [[("TelegramUserID", Scalar.vstr "u2")]]⟩,
         Except.ok (some [[("TelegramUserID", Scalar.vstr "u2")]]))
    ∧ [[("TelegramUserID", Scalar.vstr "u1")]] ≠ [[("TelegramUserID", Scalar.vstr "u2")]] :=
  ⟨by decide, rfl, rfl, by decide⟩

/-- Claim C2 (amended): two `get` calls on the same key return the
identical stored snapshot, with the loader not invoked by either call
(the result and the entry are independent of the loader argument),
provided the stored snapshot is non-absent and still within the TTL at
the time of the later call — i.e. staleness is measured from the
snapshot's fetched_at, not from the previous call. -/
theorem c2_fresh_reads_stable (ttl t1 t2 : Int) (e : CacheEntry) (s : List Record)
    (l1 l2 : Except String (List Record))
    (hs : e.data = some s) (h12 : t1 ≤ t2) (hfresh : t2 - e.ts ≤ ttl) :
    get_cached ttl t1 e l1 = (e, Except.ok (some s))
    ∧ get_cached ttl t2 e l2 = (e, Except.ok (some s)) :=
  ⟨get_cached_fresh ttl t1 e s l1 hs (by omega),
   get_cached_fresh ttl t2 e s l2 hs hfresh⟩

/-- Claim C2 witness: TTL 600, snapshot fetched at 0, reads at 100 and
500 with two different loaders both serve the stored snapshot. -/
theorem c2_fresh_reads_stable_witness :
    get_cached 600 100 ⟨0, some [[("TelegramUserID", Scalar.vstr "u1")]]⟩ (Except.error "SourceUnavailable")
      = (⟨0, some [[("TelegramUserID", Scalar.vstr "u1")]]⟩, Except.ok (some [[("TelegramUserID", Scalar.vstr "u1")]]))
    ∧ get_cached 600 500 ⟨0, some [[("TelegramUserID", Scalar.vstr "u1")]]⟩ (Except.ok [])
      = (⟨0, some [[("TelegramUserID", Scalar.vstr "u1")]]⟩, Except.ok (some [[("TelegramUserID", Scalar.vstr "u1")]])) :=
  c2_fresh_reads_stable 600 100 500 ⟨0, some [[("TelegramUserID", Scalar.vstr "u1")]]⟩
    [[("TelegramUserID", Scalar.vstr "u1")]] (Except.error "SourceUnavailable") (Except.ok [])
    rfl (by decide) (by decide)

/-- Claim C3, counterexample. A stored snapshot whose record sequence
is empty, fetched at time 0, read at time 10 with TTL 600 (younger
than the TTL): contrary to the claim, the loader is not invoked — the
call returns the stored empty snapshot unchanged whatever the loader
would produce (the code only tests data is None, not emptiness). -/
theorem c3_counterexample :
    get_cached 600 10 ⟨0, some []⟩ (Except.ok [[("TelegramUserID", Scalar.vstr "u1")]])
      = (⟨0, some []⟩, Except.ok (some []))
    ∧ get_cached 600 10 ⟨0, some []⟩ (Except.error "SourceUnavailable")
      = (⟨0, some []⟩, Except.ok (some [])) :=
  ⟨rfl, rfl⟩

/-- Claim C3 (amended): `get` invokes the loader and stores its result
with fetched_at = now exactly when no snapshot is stored (data is
None) or the stored snapshot's age strictly exceeds the TTL; an empty
stored record sequence does not trigger a refresh — a fresh entry is
returned as stored, independently of the loader, even when its record
sequence is empty. -/
theorem c3_refresh_condition (ttl now : Int) (e : CacheEntry) :
    ((e.data = none ∨ now - e.ts > ttl) → ∀ d,
      get_cached ttl now e (Except.ok d) = (⟨now, some d⟩, Except.ok (some d)))
    ∧ (∀ s, e.data = some s → now - e.ts ≤ ttl → ∀ loader,
      get_cached ttl now e loader = (e, Except.ok (some s))) :=
  ⟨fun h d => get_cached_refresh_ok ttl now e d h,
   fun s hs hf loader => get_cached_fresh ttl now e s loader hs hf⟩

/-- Claim C3 witness: a missing snapshot is refreshed at time 700, and
a fresh empty snapshot is served as stored at time 10. -/
theorem c3_refresh_condition_witness :
    get_cached 600 700 ⟨0, none⟩ (Except.ok [[("TelegramUserID", Scalar.vstr "u1")]])
      = (⟨700, some [[("TelegramUserID", Scalar.vstr "u1")]]⟩, Except.ok (some [[("TelegramUserID", Scalar.vstr "u1")]]))
    ∧ get_cached 600 10 ⟨0, some []⟩ (Except.error "SourceUnavailable")
      = (⟨0, some []⟩, Except.ok (some [])) :=
  ⟨(c3_refresh_condition 600 700 ⟨0, none⟩).1 (Or.inl rfl) [[("TelegramUserID", Scalar.vstr "u1")]],
   (c3_refresh_condition 600 10 ⟨0, some []⟩).2 [] rfl (by decide) (Except.error "SourceUnavailable")⟩

/-- Claim C10: if the loader raises during a `get` that attempts a
refresh (no stored data, or stored data older than the TTL), the cache
entry after the call is exactly the entry before it — neither the
stored data nor the fetch timestamp is modified (the assignments come
after the loader call) — and the exception propagates to the caller. -/
theorem c10_loader_failure_atomic (ttl now : Int) (e : CacheEntry) (err : String)
    (h : e.data = none ∨ now - e.ts > ttl) :
    get_cached ttl now e (Except.error err) = (e, Except.error err) :=
  get_cached_refresh_error ttl now e err h

/-- Claim C10 witness: a failing refresh of a stale entry at time 900
leaves the entry (fetched_at 0, stored snapshot) untouched and
propagates the error. -/
theorem c10_loader_failure_atomic_witness :
    get_cached 600 900 ⟨0, some [[("TelegramUserID", Scalar.vstr "u1")]]⟩ (Except.error "SourceUnavailable")
      = (⟨0, some [[("TelegramUserID", Scalar.vstr "u1")]]⟩, Except.error "SourceUnavailable") :=
  c10_loader_failure_atomic 600 900 ⟨0, some [[("TelegramUserID", Scalar.vstr "u1")]]⟩
    "SourceUnavailable" (Or.inr (by decide))

/-- Claim C4, counterexample. A dataset whose columns are all present
but whose only TelegramUserID is null: nunique drops nulls, so the
total is 0, and the `/summary` computation does not produce an
"undefined" sentinel — the division by the zero total raises, and the
ZeroDivisionError propagates uncaught out of the handler. -/
theorem c4_counterexample :
    summary [[("TelegramUserID", Scalar.vnull), ("RegistrationStatus", Scalar.vstr "Completed"),
              ("EmailVerified", Scalar.vstr "Yes")]] = Except.error "ZeroDivisionError" := rfl

/-- Claim C4 (amended): with the three accessed columns present and a
non-zero total, the summary's conversion field equals
conversion_ratio(completed, total) = completed / total * 100 rounded
to two decimal places; but a zero total is not mapped to a sentinel by
the caller — the division raises and the error propagates uncaught
(and when the TelegramUserID column is missing altogether, e.g. on the
column-less empty DataFrame, attribute access raises AttributeError
before any division). -/
theorem c4_conversion_guard (rows : List Record) :
    ("TelegramUserID" ∉ columnsOf rows → summary rows = Except.error "AttributeError")
    ∧ ("TelegramUserID" ∈ columnsOf rows → "RegistrationStatus" ∈ columnsOf rows →
        "EmailVerified" ∈ columnsOf rows → summaryTotal rows = 0 →
        summary rows = Except.error "ZeroDivisionError")
    ∧ (∀ out, summary rows = Except.ok out →
        out.total = summaryTotal rows ∧ out.total ≠ 0
        ∧ out.conversion = conversion_ratio out.completed out.total) := by
  refine ⟨?_, ?_, ?_⟩
  · intro h
    simp only [summary]
    rw [if_pos h]
  · intro h1 h2 h3 h0
    simp only [summary]
    rw [if_neg (not_not_intro h1), if_neg (not_not_intro h2), if_neg (not_not_intro h3),
        if_pos h0]
  · intro out h
    simp only [summary] at h
    by_cases h1 : "TelegramUserID" ∉ columnsOf rows
    · rw [if_pos h1] at h
      cases h
    · rw [if_neg h1] at h
      by_cases h2 : "RegistrationStatus" ∉ columnsOf rows
      · rw [if_pos h2] at h
        cases h
      · rw [if_neg h2] at h
        by_cases h3 : "EmailVerified" ∉ columnsOf rows
        · rw [if_pos h3] at h
          cases h
        · rw [if_neg h3] at h
          by_cases h0 : summaryTotal rows = 0
          · rw [if_pos h0] at h
            cases h
          · rw [if_neg h0] at h
            injection h with h
            subst h
            exact ⟨rfl, h0, rfl⟩

/-- Claim C4 witness: the empty dataset has no columns and raises
AttributeError; the all-null-id dataset has total 0 and raises
ZeroDivisionError; the spec's two-user scenario (u1 completed and
verified, u2 pending) has total 2, completed 1, verified 1 and
conversion 50, agreeing with the spec-level conversion_ratio. -/
theorem c4_conversion_guard_witness :
    summary [] = Except.error "AttributeError"
    ∧ summary [[("TelegramUserID", Scalar.vnull), ("RegistrationStatus", Scalar.vstr "Completed"),
                ("EmailVerified", Scalar.vstr "Yes")]] = Except.error "ZeroDivisionError"
    ∧ summary [[("TelegramUserID", Scalar.vstr "u1"), ("RegistrationStatus", Scalar.vstr "Completed"), ("EmailVerified", Scalar.vstr "Yes")],
               [("TelegramUserID", Scalar.vstr "u2"), ("RegistrationStatus", Scalar.vstr "Pending"), ("EmailVerified", Scalar.vstr "No")]]
      = Except.ok ⟨2, 1, 1, conversion_ratio 1 2⟩
    ∧ (⟨2, 1, 1, conversion_ratio 1 2⟩ : SummaryOut).conversion = conversion_ratio 1 2
    ∧ conversion_ratio 1 2 = 50 :=
  ⟨(c4_conversion_guard []).1 (by decide),
   (c4_conversion_guard
      [[("TelegramUserID", Scalar.vnull), ("RegistrationStatus", Scalar.vstr "Completed"),
        ("EmailVerified", Scalar.vstr "Yes")]]).2.1
      (by decide) (by decide) (by decide) (by decide),
   rfl,
   ((c4_conversion_guard
      [[("TelegramUserID", Scalar.vstr "u1"), ("RegistrationStatus", Scalar.vstr "Completed"), ("EmailVerified", Scalar.vstr "Yes")],
       [("TelegramUserID", Scalar.vstr "u2"), ("RegistrationStatus", Scalar.vstr "Pending"), ("EmailVerified", Scalar.vstr "No")]]).2.2
      ⟨2, 1, 1, conversion_ratio 1 2⟩ rfl).2.2,
   by norm_num [conversion_ratio, round2, roundHalfEven]⟩

/-- A successful field lookup exhibits a member of the record. -/
theorem fieldVal_mem (r : Record) (c : String) (v : Scalar)
    (h : fieldVal r c = some v) : (c, v) ∈ r := by
  induction r with
  | nil => simp [fieldVal] at h
  | cons kv r ih =>
    obtain ⟨k, w⟩ := kv
    simp only [fieldVal] at h
    by_cases hk : k = c
    · rw [if_pos hk] at h
      injection h with h
      subst hk; subst h
      exact List.mem_cons_self _ _
    · rw [if_neg hk] at h
      exact List.mem_cons_of_mem _ (ih h)

/-- Membership in addCol. -/
theorem mem_addCol (acc : List String) (k a : String) :
    a ∈ addCol acc k ↔ a ∈ acc ∨ a = k := by
  unfold addCol
  split
  · rename_i hmem
    constructor
    · exact Or.inl
    · rintro (h | rfl) <;> assumption
  · simp

/-- Membership after folding addCol over a name list. -/
theorem mem_foldl_addCol (l : List String) (acc : List String) (a : String) :
    a ∈ l.foldl addCol acc ↔ a ∈ acc ∨ a ∈ l := by
  induction l generalizing acc with
  | nil => simp
  | cons k l ih =>
    rw [List.foldl_cons, ih, mem_addCol]
    simp only [List.mem_cons]
    tauto

/-- recCols folds the record's key list. -/
theorem recCols_eq (acc : List String) (r : Record) :
    recCols acc r = (r.map Prod.fst).foldl addCol acc := by
  unfold recCols
  rw [List.foldl_map]

/-- Membership in recCols. -/
theorem mem_recCols (acc : List String) (r : Record) (a : String) :
    a ∈ recCols acc r ↔ a ∈ acc ∨ a ∈ r.map Prod.fst := by
  rw [recCols_eq, mem_foldl_addCol]

/-- Membership after folding recCols over a record list. -/
theorem mem_foldl_recCols (rows : List Record) (acc : List String) (a : String) :
    a ∈ rows.foldl recCols acc ↔ a ∈ acc ∨ ∃ r ∈ rows, a ∈ r.map Prod.fst := by
  induction rows generalizing acc with
  | nil => simp
  | cons r rows ih =>
    rw [List.foldl_cons, ih, mem_recCols]
    simp only [List.mem_cons]
    constructor
    · rintro ((h | h) | ⟨r', hr', h⟩)
      · exact Or.inl h
      · exact Or.inr ⟨r, Or.inl rfl, h⟩
      · exact Or.inr ⟨r', Or.inr hr', h⟩
    · rintro (h | ⟨r', (rfl | hr'), h⟩)
      · exact Or.inl (Or.inl h)
      · exact Or.inl (Or.inr h)
      · exact Or.inr ⟨r', hr', h⟩

/-- A name is a column of a record list iff some record carries it. -/
theorem mem_columnsOf (rows : List Record) (a : String) :
    a ∈ columnsOf rows ↔ ∃ r ∈ rows, a ∈ r.map Prod.fst := by
  unfold columnsOf
  rw [mem_foldl_recCols]
  simp

/-- mapOpt fails as soon as one element fails. -/
theorem mapOpt_none_of_mem (f : α → Option β) (l : List α) (a : α)
    (ha : a ∈ l) (hf : f a = none) : mapOpt f l = none := by
  induction l with
  | nil => cases ha
  | cons b l ih =>
    rcases List.mem_cons.mp ha with rfl | ha'
    · simp [mapOpt, hf]
    · cases hb : f b <;> simp [mapOpt, hb, ih ha']

/-- Claim C5, counterexample. A dataset of two rows whose second row
carries the unparseable timestamp "not-a-date": contrary to the claim,
normalization of the whole dataset aborts (pd.to_datetime raises on
the column) — the first row is not normalized and the second row's
field is not "left as the original scalar" in a surviving dataset. -/
theorem c5_counterexample :
    normalizeRows [[("Timestamp", Scalar.vstr "2024-01-02T03:04:05"), ("A", Scalar.vint 1)],
                   [("Timestamp", Scalar.vstr "not-a-date")]] = none := rfl

/-- Claim C5 (amended): a timestamp parse failure is not per-record —
whenever any row's "Timestamp" cell holds a non-empty string that
fails to parse, normalization of the whole dataset errors out. -/
theorem c5_malformed_timestamp_aborts (rows : List Record)
    (h : ∃ r ∈ rows, ∃ s, fieldVal r "Timestamp" = some (Scalar.vstr s)
          ∧ s ≠ "" ∧ parseTS s = none) :
    normalizeRows rows = none := by
  obtain ⟨r, hr, s, hfv, hne, hps⟩ := h
  have hmem : ("Timestamp", Scalar.vstr s) ∈ r := fieldVal_mem r _ _ hfv
  have hcol : "Timestamp" ∈ columnsOf rows :=
    (mem_columnsOf rows _).mpr ⟨r, hr, List.mem_map_of_mem Prod.fst hmem⟩
  have hrec : parseRecordTS r = none := by
    apply mapOpt_none_of_mem _ r ("Timestamp", Scalar.vstr s) hmem
    simp [pdToDatetime, hne, hps]
  have hpt : parse_timestamp rows = none := by
    unfold parse_timestamp
    rw [if_pos hcol]
    exact mapOpt_none_of_mem _ rows r hr hrec
  unfold normalizeRows
  rw [hpt]
  rfl

/-- Claim C5 witness: the two-row dataset with one malformed timestamp
aborts as the amended claim states. -/
theorem c5_malformed_timestamp_aborts_witness :
    normalizeRows [[("Timestamp", Scalar.vstr "2024-01-02T03:04:05")],
                   [("Timestamp", Scalar.vstr "nope"), ("A", Scalar.vint 1)]] = none :=
  c5_malformed_timestamp_aborts _
    ⟨[("Timestamp", Scalar.vstr "nope"), ("A", Scalar.vint 1)],
     by simp, "nope", rfl, by decide, rfl⟩


/-- Effect of one bump on a lookup: the bumped key gains one, the rest
are unchanged. -/
theorem lookupCount_bump (l : List (String × Nat)) (k k' : String) :
    lookupCount (bump l k) k' =
      if k' = k then some (((lookupCount l k').getD 0) + 1) else lookupCount l k' := by
  induction l with
  | nil =>
    by_cases h : k' = k
    · subst h; simp [bump, lookupCount]
    · have h2 : ¬k = k' := fun hh => h hh.symm
      simp [bump, lookupCount, h, h2]
  | cons hd tl ih =>
    obtain ⟨a, n⟩ := hd
    simp only [bump]
    by_cases hak : a = k
    · subst hak
      simp only [if_pos rfl, lookupCount]
      by_cases h' : a = k'
      · subst h'
        simp [lookupCount]
      · have h2 : ¬k' = a := fun hh => h' hh.symm
        simp [lookupCount, h', h2]
    · rw [if_neg hak]
      simp only [lookupCount]
      by_cases h' : a = k'
      · subst h'
        simp [hak]
      · rw [if_neg h', ih, if_neg h']

/-- Lookup into the counts object built by the groupCounts fold,
relative to an arbitrary accumulator. -/
theorem lookupCount_countsFold_aux (c k : String) (rows : List Record)
    (acc : List (String × Nat)) :
    lookupCount (rows.foldl (fun a r => bump a (gcKey (fieldVal r c))) acc) k =
      (if rows.countP (fun r => decide (gcKey (fieldVal r c) = k)) = 0 then lookupCount acc k
       else some ((lookupCount acc k).getD 0
                  + rows.countP (fun r => decide (gcKey (fieldVal r c) = k)))) := by
  induction rows generalizing acc with
  | nil => simp
  | cons r rows ih =>
    rw [List.foldl_cons, ih, List.countP_cons]
    simp only [lookupCount_bump]
    by_cases hr : gcKey (fieldVal r c) = k
    · rw [if_pos hr.symm]
      have hd : (if decide (gcKey (fieldVal r c) = k) = true then 1 else 0) = 1 := by
        simp [hr]
      rw [hd]
      by_cases hcnt : rows.countP (fun r => decide (gcKey (fieldVal r c) = k)) = 0
      · rw [hcnt]
        simp
      · rw [if_neg hcnt, if_neg (by omega)]
        simp only [Option.getD_some, Option.some.injEq]
        omega
    · rw [if_neg (fun hh : k = gcKey (fieldVal r c) => hr hh.symm)]
      have hd : (if decide (gcKey (fieldVal r c) = k) = true then 1 else 0) = 0 := by
        simp [hr]
      rw [hd]
      simp

/-- Claim C6: for a resolved (truthy) column name, groupCounts maps
each distinct coerced string value — absent/null as "Unknown",
whitespace trimmed, empty-after-trim as "Unknown" — to the number of
records holding it (and holds no entry for a value no record has), and
on the spec's example dataset it yields exactly the mapping High to 1,
Unknown to 2 in first-occurrence order. -/
theorem c6_groupCounts_counts (rows : List Record) (c k : String) (hc : c ≠ "") :
    groupCounts rows (some c) = some (countsFold rows c)
    ∧ lookupCount (countsFold rows c) k =
        (if rows.countP (fun r => decide (gcKey (fieldVal r c) = k)) = 0 then none
         else some (rows.countP (fun r => decide (gcKey (fieldVal r c) = k))))
    ∧ groupCounts [[("Risk", Scalar.vstr " High ")], [("Risk", Scalar.vstr "")],
                   [("Risk", Scalar.vnull)]] (some "Risk")
        = some [("High", 1), ("Unknown", 2)] := by
  refine ⟨by simp [groupCounts, hc], ?_, rfl⟩
  have h := lookupCount_countsFold_aux c k rows []
  simpa [countsFold, lookupCount] using h

/-- Claim C6 witness: on the spec's example, the coerced value
"Unknown" (from the empty string and the null) counts 2, "High"
counts 1, and the value "Low", held by no record, has no entry. -/
theorem c6_groupCounts_counts_witness :
    lookupCount (countsFold [[("Risk", Scalar.vstr " High ")], [("Risk", Scalar.vstr "")],
                             [("Risk", Scalar.vnull)]] "Risk") "Unknown" = some 2
    ∧ lookupCount (countsFold [[("Risk", Scalar.vstr " High ")], [("Risk", Scalar.vstr "")],
                               [("Risk", Scalar.vnull)]] "Risk") "High" = some 1
    ∧ lookupCount (countsFold [[("Risk", Scalar.vstr " High ")], [("Risk", Scalar.vstr "")],
                               [("Risk", Scalar.vnull)]] "Risk") "Low" = none := by
  refine ⟨?_, ?_, ?_⟩
  · rw [(c6_groupCounts_counts [[("Risk", Scalar.vstr " High ")], [("Risk", Scalar.vstr "")],
        [("Risk", Scalar.vnull)]] "Risk" "Unknown" (by decide)).2.1]
    decide
  · rw [(c6_groupCounts_counts [[("Risk", Scalar.vstr " High ")], [("Risk", Scalar.vstr "")],
        [("Risk", Scalar.vnull)]] "Risk" "High" (by decide)).2.1]
    decide
  · rw [(c6_groupCounts_counts [[("Risk", Scalar.vstr " High ")], [("Risk", Scalar.vstr "")],
        [("Risk", Scalar.vnull)]] "Risk" "Low" (by decide)).2.1]
    decide

/-- Claim C9, counterexample. On a single-user dataset (alice, with a
Timestamp), the per-user endpoint queried with the unmatched username
"bob": contrary to the claim, the result is not an empty mapping —
`.iloc[-1]` on the empty selection raises an IndexError. -/
theorem c9_counterexample :
    user_data [[("TelegramUsername", Scalar.vstr "alice"),
                ("Timestamp", Scalar.vts ⟨2024, 1, 2, 3, 4, 5⟩),
                ("FullName", Scalar.vstr "Alice")]] "bob"
      = Except.error "IndexError" := rfl

/-- Claim C9 (amended): on a dataset carrying the TelegramUsername and
Timestamp columns, an id_value that matches no record makes the
per-user endpoint fail with the IndexError of `.iloc[-1]` on the empty
selection — an empty mapping is never returned. -/
theorem c9_no_match_raises (records : List Record) (username : String)
    (hu : "TelegramUsername" ∈ columnsOf records)
    (ht : "Timestamp" ∈ columnsOf records)
    (h : ∀ r ∈ records, fieldVal r "TelegramUsername" ≠ some (Scalar.vstr username)) :
    user_data records username = Except.error "IndexError" := by
  have hfil : records.filter
      (fun r => decide (fieldVal r "TelegramUsername" = some (Scalar.vstr username))) = [] := by
    rw [List.filter_eq_nil_iff]
    intro r hr
    simp [h r hr]
  simp only [user_data]
  rw [if_neg (not_not_intro hu), if_neg (not_not_intro ht), hfil]
  rfl

/-- Claim C9 witness: the amended claim at the single-alice dataset
queried for "bob". -/
theorem c9_no_match_raises_witness :
    user_data [[("TelegramUsername", Scalar.vstr "alice"),
                ("Timestamp", Scalar.vts ⟨2024, 1, 2, 3, 4, 5⟩),
                ("FullName", Scalar.vstr "Alice")]] "bob"
      = Except.error "IndexError" :=
  c9_no_match_raises
    [[("TelegramUsername", Scalar.vstr "alice"),
      ("Timestamp", Scalar.vts ⟨2024, 1, 2, 3, 4, 5⟩),
      ("FullName", Scalar.vstr "Alice")]] "bob"
    (by decide) (by decide) (by decide)

/-- A successful map lookup returns a stored key with the queried
normalized form. -/
theorem columnMapLookup_mem (keys : List String) (q k : String)
    (h : columnMapLookup keys q = some k) : k ∈ keys ∧ normalizeKey k = q := by
  unfold columnMapLookup at h
  have h1 := List.find?_some h
  have h2 := List.mem_of_find?_eq_some h
  exact ⟨List.mem_reverse.mp h2, by simpa using h1⟩

/-- The map lookup misses exactly when no key has the queried
normalized form. -/
theorem columnMapLookup_none (keys : List String) (q : String) :
    columnMapLookup keys q = none ↔ ∀ k ∈ keys, normalizeKey k ≠ q := by
  unfold columnMapLookup
  rw [List.find?_eq_none]
  simp

/-- Claim C7 (amended): on a non-empty row list, resolution scans the
candidates in order; a candidate whose normalized form is stored in
the first row's key map under a non-empty original column name makes
findColumn return that stored name, a candidate with no truthy hit is
skipped (an original column name that is the empty string is falsy),
no match among any candidate yields null, and any returned name is a
non-empty first-row column whose normalized form equals some
candidate's; the spec's example resolves "InvestmentPlanSelected"
against the column "Investment_Plan Selected". -/
theorem c7_findColumn_resolution (r : Record) (rest : List Record)
    (cands : List String) (c : String) (cs : List String) :
    (findColumn [[("Investment_Plan Selected", Scalar.vstr "x")]] ["InvestmentPlanSelected"]
       = some "Investment_Plan Selected")
    ∧ (∀ h, columnMapLookup (r.map Prod.fst) (normalizeKey c) = some h → h ≠ "" →
        findColumn (r :: rest) (c :: cs) = some h)
    ∧ (candidateHit (r.map Prod.fst) c = none →
        findColumn (r :: rest) (c :: cs) = findColumn (r :: rest) cs)
    ∧ ((∀ c' ∈ cands, ∀ k ∈ r.map Prod.fst, normalizeKey k ≠ normalizeKey c') →
        findColumn (r :: rest) cands = none)
    ∧ (∀ h, findColumn (r :: rest) cands = some h →
        h ∈ r.map Prod.fst ∧ h ≠ "" ∧ ∃ c' ∈ cands, normalizeKey h = normalizeKey c') := by
  refine ⟨rfl, ?_, ?_, ?_, ?_⟩
  · intro h hml hne
    have hch : candidateHit (r.map Prod.fst) c = some h := by
      unfold candidateHit
      rw [hml]
      simp [hne]
    simp only [findColumn]
    rw [List.findSome?_cons, hch]
  · intro hch
    simp only [findColumn]
    rw [List.findSome?_cons, hch]
  · intro hnone
    simp only [findColumn]
    induction cands with
    | nil => rfl
    | cons c' cs' ih =>
      rw [List.findSome?_cons]
      have hch : candidateHit (r.map Prod.fst) c' = none := by
        unfold candidateHit
        rw [(columnMapLookup_none _ _).mpr (hnone c' (List.mem_cons_self _ _))]
      rw [hch]
      exact ih (fun c'' hc'' => hnone c'' (List.mem_cons_of_mem _ hc''))
  · intro h hf
    simp only [findColumn] at hf
    obtain ⟨c', hc', hch⟩ := List.exists_of_findSome?_eq_some hf
    unfold candidateHit at hch
    cases hml : columnMapLookup (r.map Prod.fst) (normalizeKey c') with
    | none => rw [hml] at hch; cases hch
    | some k =>
      rw [hml] at hch
      by_cases hk : k = ""
      · simp [hk] at hch
      · simp only [hk, if_neg, ite_false, Option.some.injEq] at hch
        subst hch
        obtain ⟨hkm, hkn⟩ := columnMapLookup_mem _ _ _ hml
        exact ⟨hkm, hk, c', hc', hkn⟩

/-- Claim C7, counterexample. A dataset whose only column is named by
the empty string, with the candidate "???": both names normalize to
the same (empty) normalized form, so by the claim resolution should
succeed — but findColumn returns null, because the stored original
name "" is falsy and the truthy check skips the hit. -/
theorem c7_counterexample :
    normalizeKey "???" = normalizeKey ""
    ∧ findColumn [[("", Scalar.vint 1)]] ["???"] = none :=
  ⟨rfl, rfl⟩

/-- Claim C7 witness: the spec's example resolves, a matching hit is
returned, an unmatched candidate list yields null, and the returned
name satisfies the soundness conjunct. -/
theorem c7_findColumn_resolution_witness :
    findColumn [[("Investment_Plan Selected", Scalar.vstr "x")]] ["InvestmentPlanSelected"]
      = some "Investment_Plan Selected"
    ∧ findColumn [[("Investment_Plan Selected", Scalar.vstr "x")]] ["Plan", "plan"] = none :=
  ⟨((c7_findColumn_resolution [("Investment_Plan Selected", Scalar.vstr "x")] []
      ["InvestmentPlanSelected"] "InvestmentPlanSelected" []).2.1
      "Investment_Plan Selected" (by decide) (by decide)),
   ((c7_findColumn_resolution [("Investment_Plan Selected", Scalar.vstr "x")] []
      ["Plan", "plan"] "Plan" []).2.2.2.1 (by decide))⟩

/-- Digit characters are digits and decode to their value (checked on
the ten digits). -/
theorem digit_aux : ∀ d < 10,
    isDig (Char.ofNat (48 + d)) = true ∧ dval (Char.ofNat (48 + d)) = d := by decide

/-- digitChar always produces a digit character. -/
theorem digitChar_isDig (n : Nat) : isDig (digitChar n) = true :=
  (digit_aux (n % 10) (Nat.mod_lt n (by norm_num))).1

/-- digitChar decodes back to the digit it encodes. -/
theorem digitChar_dval (n : Nat) : dval (digitChar n) = n % 10 :=
  (digit_aux (n % 10) (Nat.mod_lt n (by norm_num))).2

/-- Two rendered digits parse back to the number below 100. -/
theorem p2_digits (n : Nat) (h : n < 100) :
    p2 (digitChar (n / 10)) (digitChar n) = some n := by
  simp [p2, digitChar_isDig, digitChar_dval]
  omega

/-- Four rendered digits parse back to the number below 10000. -/
theorem p4_digits (n : Nat) (h : n < 10000) :
    p4 (digitChar (n / 1000)) (digitChar (n / 100)) (digitChar (n / 10)) (digitChar n)
      = some n := by
  simp [p4, digitChar_isDig, digitChar_dval]
  omega

/-- Months never exceed 31 days. -/
theorem daysInMonth_le (y m : Nat) : daysInMonth y m ≤ 31 := by
  unfold daysInMonth
  split
  · split <;> omega
  · split <;> omega

/-- Field bounds of a valid instant, as needed by digit rendering. -/
theorem validInstant_bounds (i : Instant) (h : validInstant i = true) :
    i.year < 10000 ∧ i.month < 100 ∧ i.day < 100
    ∧ i.hour < 100 ∧ i.minute < 100 ∧ i.second < 100 := by
  unfold validInstant at h
  simp only [Bool.and_eq_true, decide_eq_true_eq] at h
  have hd := daysInMonth_le i.year i.month
  omega

/-- mkInstant only produces validated instants. -/
theorem mkInstant_valid (y mo d h mi s : Nat) (i : Instant)
    (hm : mkInstant y mo d h mi s = some i) : validInstant i = true := by
  simp only [mkInstant] at hm
  split at hm
  · rename_i hv
    injection hm with hm
    subst hm
    exact hv
  · cases hm

/-- parseAll only produces validated instants. -/
theorem parseAll_valid (y1 y2 y3 y4 m1 m2 d1 d2 h1 h2 n1 n2 s1 s2 : Char) (i : Instant)
    (h : parseAll y1 y2 y3 y4 m1 m2 d1 d2 h1 h2 n1 n2 s1 s2 = some i) :
    validInstant i = true := by
  simp only [parseAll, Option.bind_eq_some] at h
  obtain ⟨y, -, mo, -, d, -, hh, -, mi, -, s, -, hmk⟩ := h
  exact mkInstant_valid _ _ _ _ _ _ _ hmk

/-- parseAll recovers a valid instant from its rendered digits. -/
theorem parseAll_render (i : Instant) (h : validInstant i = true) :
    parseAll (digitChar (i.year / 1000)) (digitChar (i.year / 100))
      (digitChar (i.year / 10)) (digitChar i.year)
      (digitChar (i.month / 10)) (digitChar i.month)
      (digitChar (i.day / 10)) (digitChar i.day)
      (digitChar (i.hour / 10)) (digitChar i.hour)
      (digitChar (i.minute / 10)) (digitChar i.minute)
      (digitChar (i.second / 10)) (digitChar i.second) = some i := by
  obtain ⟨hy, hmo, hd, hh, hmi, hs⟩ := validInstant_bounds i h
  unfold parseAll
  rw [p4_digits i.year hy, p2_digits i.month hmo, p2_digits i.day hd,
      p2_digits i.hour hh, p2_digits i.minute hmi, p2_digits i.second hs]
  show mkInstant i.year i.month i.day i.hour i.minute i.second = some i
  have he : (⟨i.year, i.month, i.day, i.hour, i.minute, i.second⟩ : Instant) = i := rfl
  simp only [mkInstant]
  rw [he]
  simp [h]

/-- parseChars only produces validated instants. -/
theorem parseChars_valid (cs : List Char) (i : Instant)
    (h : parseChars cs = some i) : validInstant i = true := by
  unfold parseChars at h
  split at h
  · split at h
    · split at h
      · exact parseAll_valid _ _ _ _ _ _ _ _ _ _ _ _ _ _ _ h
      · split at h
        · exact parseAll_valid _ _ _ _ _ _ _ _ _ _ _ _ _ _ _ h
        · cases h
      · cases h
    · cases h
  · cases h

/-- parseTS only produces validated instants. -/
theorem parseTS_valid (s : String) (i : Instant)
    (h : parseTS s = some i) : validInstant i = true :=
  parseChars_valid _ _ h

/-- The canonical rendering of a valid instant parses back to the same
instant. -/
theorem parseTS_renderTS (i : Instant) (h : validInstant i = true) :
    parseTS (renderTS i) = some i := by
  show parseChars (renderChars i) = some i
  unfold renderChars
  simp only [parseChars, fracOk]
  simp only [and_self, true_and, true_or, if_true]
  exact parseAll_render i h

/-- A rendered instant is never the empty string. -/
theorem renderTS_ne_empty (i : Instant) : renderTS i ≠ "" := by
  intro h
  have h2 : renderChars i = ([] : List Char) := congrArg String.data h
  simp [renderChars] at h2

/-- pd.to_datetime only produces NaT or validated instants. -/
theorem pdToDatetime_image (v w : Scalar) (h : pdToDatetime v = some w) :
    w = Scalar.vnull ∨ ∃ i, w = Scalar.vts i ∧ validInstant i = true := by
  cases v with
  | vnull =>
    simp only [pdToDatetime, Option.some.injEq] at h
    exact Or.inl h.symm
  | vts i =>
    simp only [pdToDatetime] at h
    split at h
    · rename_i hv
      injection h with h
      subst h
      exact Or.inr ⟨i, rfl, hv⟩
    · cases h
  | vstr s =>
    simp only [pdToDatetime] at h
    split at h
    · injection h with h
      exact Or.inl h.symm
    · rw [Option.map_eq_some'] at h
      obtain ⟨i, hp, rfl⟩ := h
      exact Or.inr ⟨i, rfl, parseTS_valid s i hp⟩
  | vint n => simp [pdToDatetime] at h
  | vbool b => simp [pdToDatetime] at h

/-- mapOpt of a pointwise-successful function is a map. -/
theorem mapOpt_congr_some (f : α → Option β) (g : α → β) (l : List α)
    (h : ∀ a ∈ l, f a = some (g a)) : mapOpt f l = some (l.map g) := by
  induction l with
  | nil => rfl
  | cons a l ih =>
    show (f a).bind (fun b => (mapOpt f l).map fun m => b :: m) = _
    rw [h a (List.mem_cons_self _ _), ih (fun a' ha' => h a' (List.mem_cons_of_mem _ ha'))]
    rfl

/-- Every element of a successful mapOpt result comes from a
successful application on some input element. -/
theorem mapOpt_some_mem (f : α → Option β) (l : List α) (m : List β)
    (h : mapOpt f l = some m) (b : β) (hb : b ∈ m) : ∃ a ∈ l, f a = some b := by
  induction l generalizing m with
  | nil =>
    simp only [mapOpt, Option.some.injEq] at h
    subst h
    cases hb
  | cons a l ih =>
    simp only [mapOpt, Option.bind_eq_some, Option.map_eq_some'] at h
    obtain ⟨b', hb', m', hm', rfl⟩ := h
    rcases List.mem_cons.mp hb with rfl | hbm
    · exact ⟨a, List.mem_cons_self _ _, hb'⟩
    · obtain ⟨a', ha', hf⟩ := ih m' hm' hbm
      exact ⟨a', List.mem_cons_of_mem _ ha', hf⟩

/-- Parsing the Timestamp column of a record preserves its key list. -/
theorem parseRecordTS_keys (r q : Record) (h : parseRecordTS r = some q) :
    q.map Prod.fst = r.map Prod.fst := by
  induction r generalizing q with
  | nil =>
    simp only [parseRecordTS, mapOpt, Option.some.injEq] at h
    subst h
    rfl
  | cons kv r ih =>
    simp only [parseRecordTS, mapOpt, Option.bind_eq_some, Option.map_eq_some'] at h
    obtain ⟨b, hb, m, hm, rfl⟩ := h
    have hm' : parseRecordTS r = some m := hm
    have hkey : b.1 = kv.1 := by
      by_cases hk : kv.1 = "Timestamp"
      · rw [if_pos hk] at hb
        rw [Option.map_eq_some'] at hb
        obtain ⟨w, -, rfl⟩ := hb
        rfl
      · rw [if_neg hk] at hb
        injection hb with hb
        rw [← hb]
    rw [List.map_cons, List.map_cons, hkey, ih m hm']

/-- recCols only depends on the key list. -/
theorem recCols_keys (acc : List String) (r q : Record)
    (h : q.map Prod.fst = r.map Prod.fst) : recCols acc q = recCols acc r := by
  rw [recCols_eq, recCols_eq, h]

/-- The column set is invariant under a successful Timestamp parse. -/
theorem foldl_recCols_parse (rows p : List Record)
    (h : mapOpt parseRecordTS rows = some p) (acc : List String) :
    p.foldl recCols acc = rows.foldl recCols acc := by
  induction rows generalizing p acc with
  | nil =>
    simp only [mapOpt, Option.some.injEq] at h
    subst h
    rfl
  | cons r rows ih =>
    simp only [mapOpt, Option.bind_eq_some, Option.map_eq_some'] at h
    obtain ⟨q, hq, m, hm, rfl⟩ := h
    rw [List.foldl_cons, List.foldl_cons,
        recCols_keys acc r q (parseRecordTS_keys r q hq), ih m hm]

/-- The column set is invariant under parse_timestamp's record map. -/
theorem columnsOf_parse (rows p : List Record)
    (h : mapOpt parseRecordTS rows = some p) : columnsOf p = columnsOf rows :=
  foldl_recCols_parse rows p h []

/-- addCol preserves Nodup. -/
theorem addCol_nodup (acc : List String) (k : String) (h : acc.Nodup) :
    (addCol acc k).Nodup := by
  unfold addCol
  split
  · exact h
  · rename_i hk
    simp [List.nodup_append, h, hk]

/-- Folding addCol preserves Nodup. -/
theorem foldl_addCol_nodup (l : List String) (acc : List String) (h : acc.Nodup) :
    (l.foldl addCol acc).Nodup := by
  induction l generalizing acc with
  | nil => exact h
  | cons k l ih => exact ih _ (addCol_nodup _ _ h)

/-- recCols preserves Nodup. -/
theorem recCols_nodup (acc : List String) (r : Record) (h : acc.Nodup) :
    (recCols acc r).Nodup := by
  rw [recCols_eq]
  exact foldl_addCol_nodup _ _ h

/-- Folding recCols preserves Nodup. -/
theorem foldl_recCols_nodup (rows : List Record) (acc : List String) (h : acc.Nodup) :
    (rows.foldl recCols acc).Nodup := by
  induction rows generalizing acc with
  | nil => exact h
  | cons r rows ih => exact ih _ (recCols_nodup _ _ h)

/-- A DataFrame's column set has no duplicates. -/
theorem columnsOf_nodup (rows : List Record) : (columnsOf rows).Nodup :=
  foldl_recCols_nodup rows [] List.nodup_nil

/-- Folding addCol over already-present names is the identity. -/
theorem foldl_addCol_of_subset (l : List String) (acc : List String)
    (h : ∀ k ∈ l, k ∈ acc) : l.foldl addCol acc = acc := by
  induction l generalizing acc with
  | nil => rfl
  | cons k l ih =>
    rw [List.foldl_cons]
    have hk : addCol acc k = acc := by
      unfold addCol
      rw [if_pos (h k (List.mem_cons_self _ _))]
    rw [hk]
    exact ih acc (fun k' hk' => h k' (List.mem_cons_of_mem _ hk'))

/-- Folding addCol over fresh distinct names appends them. -/
theorem foldl_addCol_of_disjoint (l : List String) (acc : List String)
    (hnd : l.Nodup) (hdisj : ∀ k ∈ l, k ∉ acc) : l.foldl addCol acc = acc ++ l := by
  induction l generalizing acc with
  | nil => simp
  | cons k l ih =>
    rw [List.foldl_cons]
    have hk : addCol acc k = acc ++ [k] := by
      unfold addCol
      rw [if_neg (hdisj k (List.mem_cons_self _ _))]
    have hnd' := List.nodup_cons.mp hnd
    rw [hk, ih (acc ++ [k]) hnd'.2]
    · simp
    · intro k' hk'
      simp only [List.mem_append, List.mem_singleton]
      rintro (hin | rfl)
      · exact hdisj k' (List.mem_cons_of_mem _ hk') hin
      · exact hnd'.1 hk'

/-- Folding recCols over records whose keys are exactly the
accumulated columns is the identity. -/
theorem foldl_recCols_fixed (cols : List String) (rows : List Record)
    (hkeys : ∀ r ∈ rows, r.map Prod.fst = cols) : rows.foldl recCols cols = cols := by
  induction rows with
  | nil => rfl
  | cons r rows ih =>
    rw [List.foldl_cons]
    have h2 : recCols cols r = cols := by
      rw [recCols_eq, hkeys r (List.mem_cons_self _ _)]
      exact foldl_addCol_of_subset cols cols (fun k hk => hk)
    rw [h2]
    exact ih (fun r' hr' => hkeys r' (List.mem_cons_of_mem _ hr'))

/-- The column set of a non-empty record list whose records all carry
exactly the duplicate-free key list cols is cols. -/
theorem columnsOf_of_keys (rows : List Record) (cols : List String)
    (hnd : cols.Nodup) (hne : rows ≠ [])
    (hkeys : ∀ r ∈ rows, r.map Prod.fst = cols) : columnsOf rows = cols := by
  cases rows with
  | nil => exact absurd rfl hne
  | cons r rows =>
    unfold columnsOf
    rw [List.foldl_cons]
    have h1 : recCols [] r = cols := by
      rw [recCols_eq, hkeys r (List.mem_cons_self _ _)]
      have h := foldl_addCol_of_disjoint cols [] hnd (by simp)
      simpa using h
    rw [h1]
    exact foldl_recCols_fixed cols rows (fun r' hr' => hkeys r' (List.mem_cons_of_mem _ hr'))

/-- Field lookup in a record materialized over a column list. -/
theorem fieldVal_map_mk (cols : List String) (g : String → Scalar) (c : String) :
    fieldVal (cols.map (fun c' => (c', g c'))) c
      = if c ∈ cols then some (g c) else none := by
  induction cols with
  | nil => simp [fieldVal]
  | cons a cols ih =>
    simp only [List.map_cons, fieldVal]
    by_cases hac : a = c
    · subst hac
      simp
    · rw [if_neg hac, ih]
      have hca : c ≠ a := fun hh => hac hh.symm
      by_cases hc : c ∈ cols
      · simp [hc, List.mem_cons]
      · simp [hc, List.mem_cons, hca]

/-- The wire form is idempotent on cells. -/
theorem wireVal_wireVal (v : Option Scalar) :
    wireVal (some (wireVal v)) = wireVal v := by
  cases v with
  | none => rfl
  | some w => cases w <;> rfl

/-- The column set of records materialized over a duplicate-free
column list is that column list. -/
theorem columnsOf_canonical (P : List Record) (cols : List String)
    (f : Record → String → Scalar) (hnd : cols.Nodup) (hne : P ≠ []) :
    columnsOf (P.map (fun r => cols.map (fun c => (c, f r c)))) = cols := by
  apply columnsOf_of_keys _ cols hnd
  · simp [hne]
  · rintro q hq
    obtain ⟨r, hr, rfl⟩ := List.mem_map.mp hq
    rw [List.map_map, show (Prod.fst ∘ fun c => (c, f r c)) = id from rfl, List.map_id]

/-- Rendering records materialized over a duplicate-free column list
applies the wire form cell-wise. -/
theorem df_to_records_map (P : List Record) (cols : List String)
    (f : Record → String → Scalar)
    (hco : columnsOf (P.map (fun r => cols.map (fun c => (c, f r c)))) = cols) :
    df_to_records (P.map (fun r => cols.map (fun c => (c, f r c))))
      = P.map (fun r => cols.map (fun c => (c, wireVal (some (f r c))))) := by
  simp only [df_to_records]
  rw [hco, List.map_map]
  apply List.map_congr_left
  intro r hr
  apply List.map_congr_left
  intro c hc
  show (c, wireVal (fieldVal (cols.map fun c' => (c', f r c')) c)) = _
  rw [fieldVal_map_mk, if_pos hc]

/-- Claim C8: normalization is idempotent. A successfully normalized
dataset normalizes again to itself: re-parsing each canonical
timestamp string re-yields the same instant, which re-renders to the
same string, and null/no-value cells stay null. -/
theorem c8_normalize_idempotent (rows out : List Record)
    (h : normalizeRows rows = some out) : normalizeRows out = some out := by
  unfold normalizeRows at h
  cases hp : parse_timestamp rows with
  | none => rw [hp] at h; cases h
  | some p =>
    rw [hp] at h
    simp only [Option.map_some', Option.some.injEq] at h
    subst h
    by_cases hpe : p = []
    · subst hpe
      rfl
    · have hnd : (columnsOf p).Nodup := columnsOf_nodup p
      have hout : df_to_records p
          = p.map (fun r => (columnsOf p).map (fun c => (c, wireVal (fieldVal r c)))) := rfl
      rw [hout]
      have hco : columnsOf (p.map (fun r => (columnsOf p).map (fun c => (c, wireVal (fieldVal r c)))))
          = columnsOf p :=
        columnsOf_canonical p (columnsOf p) (fun r c => wireVal (fieldVal r c)) hnd hpe
      simp only [normalizeRows, parse_timestamp]
      rw [hco]
      by_cases hTS : "Timestamp" ∈ columnsOf p
      · rw [if_pos hTS]
        have hmap : mapOpt parseRecordTS rows = some p := by
          unfold parse_timestamp at hp
          split at hp
          · exact hp
          · rename_i hnot
            injection hp with hpe2
            rw [← hpe2] at hTS
            exact absurd hTS hnot
        have hcell : ∀ r ∈ p, ∃ w, pdToDatetime (wireVal (fieldVal r "Timestamp")) = some w
            ∧ wireVal (some w) = wireVal (fieldVal r "Timestamp") := by
          intro r hr
          cases hfv : fieldVal r "Timestamp" with
          | none => exact ⟨Scalar.vnull, rfl, rfl⟩
          | some v =>
            have hvmem : ("Timestamp", v) ∈ r := fieldVal_mem r _ v hfv
            obtain ⟨r1, hr1, hpr⟩ := mapOpt_some_mem parseRecordTS rows p hmap r hr
            have hpr' : mapOpt (fun kv =>
                if kv.1 = "Timestamp" then (pdToDatetime kv.2).map (fun w => (kv.1, w))
                else some kv) r1 = some r := hpr
            obtain ⟨kv0, hkv0, hf⟩ := mapOpt_some_mem _ r1 r hpr' ("Timestamp", v) hvmem
            have himg : ∃ v0, pdToDatetime v0 = some v := by
              by_cases hk : kv0.1 = "Timestamp"
              · rw [if_pos hk] at hf
                rw [Option.map_eq_some'] at hf
                obtain ⟨w0, hw0, he⟩ := hf
                have hwv : w0 = v := ((Prod.mk.injEq _ _ _ _).mp he).2
                exact ⟨kv0.2, by rw [hw0, hwv]⟩
              · rw [if_neg hk] at hf
                injection hf with hf
                exact absurd (congrArg Prod.fst hf) hk
            obtain ⟨v0, hv0⟩ := himg
            rcases pdToDatetime_image v0 v hv0 with rfl | ⟨i, rfl, hvi⟩
            · exact ⟨Scalar.vnull, rfl, rfl⟩
            · refine ⟨Scalar.vts i, ?_, rfl⟩
              show pdToDatetime (Scalar.vstr (renderTS i)) = some (Scalar.vts i)
              simp only [pdToDatetime]
              rw [if_neg (renderTS_ne_empty i), parseTS_renderTS i hvi]
              rfl
        have hrec : ∀ q ∈ p.map (fun r => (columnsOf p).map (fun c => (c, wireVal (fieldVal r c)))),
            parseRecordTS q = some (q.map (fun kv =>
              if kv.1 = "Timestamp" then (kv.1, (pdToDatetime kv.2).getD Scalar.vnull)
              else kv)) := by
          intro q hq
          obtain ⟨r, hr, rfl⟩ := List.mem_map.mp hq
          unfold parseRecordTS
          apply mapOpt_congr_some
          intro kv hkv
          obtain ⟨c, hc, rfl⟩ := List.mem_map.mp hkv
          by_cases hk : c = "Timestamp"
          · subst hk
            obtain ⟨w, hw, -⟩ := hcell r hr
            show (if ("Timestamp" : String) = "Timestamp" then
                (pdToDatetime (wireVal (fieldVal r "Timestamp"))).map (fun w => ("Timestamp", w))
              else some ("Timestamp", wireVal (fieldVal r "Timestamp")))
              = some (if ("Timestamp" : String) = "Timestamp" then
                  ("Timestamp", (pdToDatetime (wireVal (fieldVal r "Timestamp"))).getD Scalar.vnull)
                else ("Timestamp", wireVal (fieldVal r "Timestamp")))
            rw [if_pos rfl, if_pos rfl, hw]
            rfl
          · show (if c = "Timestamp" then
                (pdToDatetime (wireVal (fieldVal r c))).map (fun w => (c, w))
              else some (c, wireVal (fieldVal r c)))
              = some (if c = "Timestamp" then
                  (c, (pdToDatetime (wireVal (fieldVal r c))).getD Scalar.vnull)
                else (c, wireVal (fieldVal r c)))
            rw [if_neg hk, if_neg hk]
        rw [mapOpt_congr_some parseRecordTS _ _ hrec]
        simp only [Option.map_some', Option.some.injEq]
        have houtP : (p.map (fun r => (columnsOf p).map (fun c => (c, wireVal (fieldVal r c))))).map
              (fun q => q.map (fun kv =>
                if kv.1 = "Timestamp" then (kv.1, (pdToDatetime kv.2).getD Scalar.vnull)
                else kv))
            = p.map (fun r => (columnsOf p).map (fun c => (c,
                if c = "Timestamp"
                then (pdToDatetime (wireVal (fieldVal r c))).getD Scalar.vnull
                else wireVal (fieldVal r c)))) := by
          rw [List.map_map]
          apply List.map_congr_left
          intro r hr
          show ((columnsOf p).map (fun c => (c, wireVal (fieldVal r c)))).map _ = _
          rw [List.map_map]
          apply List.map_congr_left
          intro c hc
          by_cases hk : c = "Timestamp" <;> simp [hk]
        rw [houtP]
        have hco2 : columnsOf (p.map (fun r => (columnsOf p).map (fun c => (c,
              if c = "Timestamp"
              then (pdToDatetime (wireVal (fieldVal r c))).getD Scalar.vnull
              else wireVal (fieldVal r c))))) = columnsOf p :=
          columnsOf_canonical p (columnsOf p) _ hnd hpe
        rw [df_to_records_map p (columnsOf p) _ hco2]
        apply List.map_congr_left
        intro r hr
        apply List.map_congr_left
        intro c hc
        by_cases hk : c = "Timestamp"
        · subst hk
          obtain ⟨w, hw, hww⟩ := hcell r hr
          simp only [if_pos rfl, if_true, hw, Option.getD_some]
          rw [hww]
        · simp only [if_neg hk]
          rw [wireVal_wireVal]
      · rw [if_neg hTS]
        simp only [Option.map_some', Option.some.injEq]
        rw [df_to_records_map p (columnsOf p) _ hco]
        apply List.map_congr_left
        intro r hr
        apply List.map_congr_left
        intro c hc
        rw [wireVal_wireVal]

/-- Claim C8 witness: a two-row dataset (one sub-second timestamp, one
row without a Timestamp cell) normalizes to a canonical form, and
normalizing that canonical form again is the identity. -/
theorem c8_normalize_idempotent_witness :
    normalizeRows [[("Timestamp", Scalar.vstr "2024-01-02 03:04:05.5"), ("A", Scalar.vnull)],
                   [("B", Scalar.vint 7)]]
      = some [[("Timestamp", Scalar.vstr "2024-01-02T03:04:05"), ("A", Scalar.vnull), ("B", Scalar.vnull)],
              [("Timestamp", Scalar.vnull), ("A", Scalar.vnull), ("B", Scalar.vint 7)]]
    ∧ normalizeRows [[("Timestamp", Scalar.vstr "2024-01-02T03:04:05"), ("A", Scalar.vnull), ("B", Scalar.vnull)],
                     [("Timestamp", Scalar.vnull), ("A", Scalar.vnull), ("B", Scalar.vint 7)]]
      = some [[("Timestamp", Scalar.vstr "2024-01-02T03:04:05"), ("A", Scalar.vnull), ("B", Scalar.vnull)],
              [("Timestamp", Scalar.vnull), ("A", Scalar.vnull), ("B", Scalar.vint 7)]] :=
  ⟨by decide,
   c8_normalize_idempotent
     [[("Timestamp", Scalar.vstr "2024-01-02 03:04:05.5"), ("A", Scalar.vnull)],
      [("B", Scalar.vint 7)]]
     [[("Timestamp", Scalar.vstr "2024-01-02T03:04:05"), ("A", Scalar.vnull), ("B", Scalar.vnull)],
      [("Timestamp", Scalar.vnull), ("A", Scalar.vnull), ("B", Scalar.vint 7)]]
     (by decide)⟩
